import Mathlib

/-!
# Layer list widget of `dive` (`runtime/ui/components/layers_primative.go`)

A shallow embedding of `LayerList`: navigation, the comparison-mode actions, `Setup` with the
input handler it installs, and the colour policy of `Draw`.

* Go's `int` is modelled by `Int`.  The quantities involved are a slice length, a terminal
  height and indices between them, so every sum and difference formed by the code stays far
  inside the 64-bit range and no operation wraps.
* The embedded `LayersViewModel` interface is modelled by a record of functions over an
  abstract view-model state `σ`, which is threaded through every call that may change it
  (`SetLayerIndex`, `SwitchMode`); the two getters only read it.
* `ll.Box.GetInnerRect()` is only used for its fourth component, which is the parameter
  `height` of the functions below.
* Logging calls (`logrus`, `zap`) have no effect on the state and are left out.
* The closures of `Setup` are named (`KeyAction`, `Handler`) and run by `KeyAction.run` and
  `inputHandler`; the order in which Go visits the map `bindingSettings` is a parameter.
* A run-time panic is an explicit result: `Outcome.panicked` for `Setup`, `none` for `Draw`.
-/

namespace Dive

/-! ## Data model -/

/-- Modelled from the spec: the type `viewmodels.LayerCompareMode` is declared outside the
source file; the spec describes it as the two-valued enumeration of comparison modes. -/
inductive LayerCompareMode
  | CompareSingleLayer
  | CompareAllLayers
  deriving DecidableEq, Repr

/-- Interface `LayersViewModel`: the four methods, over a view-model state `σ`.
`SetLayerIndex` returns its answer and the new state, `SwitchMode` the new state. -/
structure LayersViewModel (σ : Type) where
  SetLayerIndex : Int → σ → Bool × σ
  GetPrintableLayers : σ → List String
  SwitchMode : σ → σ
  GetMode : σ → LayerCompareMode

/-- The two integer fields of `LayerList`, in the order of the struct declaration. -/
structure LayerList where
  bufferIndexLowerBound : Int
  cmpIndex : Int
  deriving DecidableEq, Repr

/-- Constructor `NewLayerList`: `cmpIndex` is set to 0 and `bufferIndexLowerBound` keeps
Go's zero value. -/
def NewLayerList : LayerList :=
  { bufferIndexLowerBound := 0, cmpIndex := 0 }

/-- Modelled from the spec: the helper `intMax` is defined outside the source file; the spec
reads `intMax(0, x)` as `max(0, x)`. -/
def intMax (a b : Int) : Int :=
  if a > b then a else b

/-- Modelled from the spec: the helper `intMin` is defined outside the source file; the spec
reads `intMin(x, y)` as `min(x, y)`. -/
def intMin (a b : Int) : Int :=
  if a < b then a else b

/-! ## Navigation -/

/-- Method `keyUp`. -/
def keyUp (ll : LayerList) : Bool × LayerList :=
  if ll.cmpIndex ≤ 0 then
    (false, ll)
  else
    let ll1 : LayerList := { ll with cmpIndex := ll.cmpIndex - 1 }
    let ll2 : LayerList :=
      if ll1.cmpIndex < ll1.bufferIndexLowerBound then
        { ll1 with bufferIndexLowerBound := ll1.bufferIndexLowerBound - 1 }
      else ll1
    (true, ll2)

/-- Method `keyDown`. -/
def keyDown {σ : Type} (vm : LayersViewModel σ) (height : Int) (ll : LayerList) (s : σ) :
    Bool × LayerList :=
  let visibleSize : Int := ((vm.GetPrintableLayers s).length : Int)
  if ll.cmpIndex + 1 ≥ visibleSize then
    (false, ll)
  else
    let ll1 : LayerList := { ll with cmpIndex := ll.cmpIndex + 1 }
    let ll2 : LayerList :=
      if ll1.cmpIndex - ll1.bufferIndexLowerBound ≥ height then
        { ll1 with bufferIndexLowerBound := ll1.bufferIndexLowerBound + 1 }
      else ll1
    (true, ll2)

/-- Method `pageUp`: the answer of `SetLayerIndex`, the widget and the view-model state. -/
def pageUp {σ : Type} (vm : LayersViewModel σ) (height : Int) (ll : LayerList) (s : σ) :
    Bool × LayerList × σ :=
  let ll1 : LayerList := { ll with cmpIndex := intMax 0 (ll.cmpIndex - height) }
  let ll2 : LayerList :=
    if ll1.cmpIndex < ll1.bufferIndexLowerBound then
      { ll1 with bufferIndexLowerBound := ll1.cmpIndex }
    else ll1
  let r := vm.SetLayerIndex ll2.cmpIndex s
  (r.1, ll2, r.2)

/-- Method `pageDown`: the answer of `SetLayerIndex`, the widget and the view-model state. -/
def pageDown {σ : Type} (vm : LayersViewModel σ) (height : Int) (ll : LayerList) (s : σ) :
    Bool × LayerList × σ :=
  let upperBoundIndex : Int := ((vm.GetPrintableLayers s).length : Int) - 1
  let ll1 : LayerList := { ll with cmpIndex := intMin (ll.cmpIndex + height) upperBoundIndex }
  let ll2 : LayerList :=
    if ll1.cmpIndex ≥ ll1.bufferIndexLowerBound + height then
      { ll1 with bufferIndexLowerBound := intMin ll1.cmpIndex (upperBoundIndex - height + 1) }
    else ll1
  let r := vm.SetLayerIndex ll2.cmpIndex s
  (r.1, ll2, r.2)

/-! ## Comparison-mode actions of `Setup` -/

/-- The action bound to `keybinding.compare-all` in `Setup`. -/
def compareAll {σ : Type} (vm : LayersViewModel σ) (s : σ) : Bool × σ :=
  if vm.GetMode s = LayerCompareMode.CompareSingleLayer then
    (true, vm.SwitchMode s)
  else
    (false, s)

/-- The action bound to `keybinding.compare-layer` in `Setup`. -/
def compareLayer {σ : Type} (vm : LayersViewModel σ) (s : σ) : Bool × σ :=
  if vm.GetMode s = LayerCompareMode.CompareAllLayers then
    (true, vm.SwitchMode s)
  else
    (false, s)

/-! ## Sequences of navigation calls -/

/-- The four navigation methods, as labels of a transition system. -/
inductive Nav
  | keyUp
  | keyDown
  | pageUp
  | pageDown
  deriving DecidableEq, Repr

/-- One navigation call on the pair of widget and view-model state. -/
def Nav.call {σ : Type} (vm : LayersViewModel σ) (height : Int) :
    Nav → LayerList × σ → Bool × LayerList × σ
  | Nav.keyUp, (ll, s) => let r := Dive.keyUp ll; (r.1, r.2, s)
  | Nav.keyDown, (ll, s) => let r := Dive.keyDown vm height ll s; (r.1, r.2, s)
  | Nav.pageUp, (ll, s) => Dive.pageUp vm height ll s
  | Nav.pageDown, (ll, s) => Dive.pageDown vm height ll s

/-- A finite sequence of navigation calls, left to right; the answers are dropped. -/
def runNav {σ : Type} (vm : LayersViewModel σ) (height : Int) :
    List Nav → LayerList × σ → LayerList × σ
  | [], st => st
  | op :: ops, st => runNav vm height ops (Nav.call vm height op st).2

/-! ## Observing the calls made on the view model -/

/-- A state-changing call on the view model. -/
inductive Call
  | SetLayerIndex (index : Int)
  | SwitchMode
  deriving DecidableEq, Repr

/-- The view model `vm` with a log of the state-changing calls made on it, oldest first. -/
def recording {σ : Type} (vm : LayersViewModel σ) : LayersViewModel (σ × List Call) where
  SetLayerIndex i s :=
    let r := vm.SetLayerIndex i s.1
    (r.1, (r.2, s.2 ++ [Call.SetLayerIndex i]))
  GetPrintableLayers s := vm.GetPrintableLayers s.1
  SwitchMode s := (vm.SwitchMode s.1, s.2 ++ [Call.SwitchMode])
  GetMode s := vm.GetMode s.1

/-! ## Sample view models -/

/-- State of the sample view models: the recorded layer index and the mode. -/
structure SampleState where
  layerIndex : Int
  mode : LayerCompareMode
  deriving DecidableEq, Repr

/-- The other comparison mode. -/
def LayerCompareMode.other : LayerCompareMode → LayerCompareMode
  | LayerCompareMode.CompareSingleLayer => LayerCompareMode.CompareAllLayers
  | LayerCompareMode.CompareAllLayers => LayerCompareMode.CompareSingleLayer

/-- A sample view model over a fixed list of layers: it accepts and records exactly the
indices of the list, and `SwitchMode` flips the mode. -/
def boundedVM (layers : List String) : LayersViewModel SampleState where
  SetLayerIndex i s :=
    if 0 ≤ i ∧ i < (layers.length : Int) then (true, { s with layerIndex := i }) else (false, s)
  GetPrintableLayers _ := layers
  SwitchMode s := { s with mode := s.mode.other }
  GetMode s := s.mode

/-- A sample view model over a fixed list of layers that rejects every index request. -/
def rejectingVM (layers : List String) : LayersViewModel SampleState where
  SetLayerIndex _ s := (false, s)
  GetPrintableLayers _ := layers
  SwitchMode s := { s with mode := s.mode.other }
  GetMode s := s.mode

/-- Initial state of the sample view models. -/
def sampleInit : SampleState :=
  { layerIndex := 0, mode := LayerCompareMode.CompareSingleLayer }

/-- Ten layers. -/
def tenLayers : List String :=
  ["l0", "l1", "l2", "l3", "l4", "l5", "l6", "l7", "l8", "l9"]

/-! ## Key bindings and `Setup` -/

/-- The values of `tcell.Key` that the input handler tells apart; every other key is
`other` with its code. -/
inductive Key
  | KeyUp
  | KeyDown
  | KeyLeft
  | KeyRight
  | other (code : Nat)
  deriving DecidableEq, Repr

/-- A `tcell.EventKey`, as far as a binding can observe it: key, rune and modifier mask. -/
structure EventKey where
  Key : Key
  Rune : Char
  Modifiers : Nat
  deriving DecidableEq, Repr

/-- Modelled from the spec: the type `KeyBinding` is declared outside the source file; the
spec describes it as a predicate over an input key event, here the method `Match`. -/
structure KeyBinding where
  Match : EventKey → Bool

/-- Modelled from the spec: the type `KeyBindingConfig` is declared outside the source file;
`GetKeyBinding` resolves a configuration name to a binding or fails with an error message. -/
structure KeyBindingConfig where
  GetKeyBinding : String → Except String KeyBinding

/-- The four closures of type `keyAction` that `Setup` puts into `bindingSettings`, by
name. -/
inductive KeyAction
  | pageUp
  | pageDown
  | compareAll
  | compareLayer
  deriving DecidableEq, Repr

/-- Calling a `keyAction` closure of `Setup`. -/
def KeyAction.run {σ : Type} (vm : LayersViewModel σ) (height : Int) :
    KeyAction → LayerList × σ → Bool × LayerList × σ
  | KeyAction.pageUp, (ll, s) => Dive.pageUp vm height ll s
  | KeyAction.pageDown, (ll, s) => Dive.pageDown vm height ll s
  | KeyAction.compareAll, (ll, s) => let r := Dive.compareAll vm s; (r.1, ll, r.2)
  | KeyAction.compareLayer, (ll, s) => let r := Dive.compareLayer vm s; (r.1, ll, r.2)

/-- The map `bindingSettings` of `Setup`, as its list of entries. -/
def bindingSettings : List (String × KeyAction) :=
  [("keybinding.page-up", KeyAction.pageUp),
   ("keybinding.page-down", KeyAction.pageDown),
   ("keybinding.compare-all", KeyAction.compareAll),
   ("keybinding.compare-layer", KeyAction.compareLayer)]

/-- The loop of `Setup` over the entries of `bindingSettings`, in the order given: it
extends `bindingArray` and `actionArray` in step, and stops with the message of the
run-time panic at the first name that `GetKeyBinding` does not resolve. -/
def bindLoop (config : KeyBindingConfig) :
    List (String × KeyAction) → List KeyBinding → List KeyAction →
      Except String (List KeyBinding × List KeyAction)
  | [], bindingArray, actionArray => Except.ok (bindingArray, actionArray)
  | (keybinding, action) :: rest, bindingArray, actionArray =>
    match config.GetKeyBinding keybinding with
    | Except.error err => Except.error ("setup error during " ++ keybinding ++ ": " ++ err)
    | Except.ok binding => bindLoop config rest (bindingArray ++ [binding]) (actionArray ++ [action])

/-- What the closure stored in the field `inputHandler` captures: the two arrays built by
`Setup`. -/
structure Handler where
  bindingArray : List KeyBinding
  actionArray : List KeyAction

/-- How a call ends: it returns to its caller, or it panics with a message. -/
inductive Outcome
  | returned
  | panicked (msg : String)
  deriving DecidableEq, Repr

/-- Method `Setup`, on the field `inputHandler` (`none` is Go's `nil`).  Go leaves the
iteration order of a map unspecified, so the order in which the entries of
`bindingSettings` are visited is the parameter `order`.  The result is the field after the
call and how the call ended; the assignment to the field comes after the loop. -/
def Setup (config : KeyBindingConfig) (order : List (String × KeyAction))
    (inputHandler : Option Handler) : Option Handler × Outcome :=
  match bindLoop config order [] [] with
  | Except.error msg => (inputHandler, Outcome.panicked msg)
  | Except.ok arrays => (some { bindingArray := arrays.1, actionArray := arrays.2 },
      Outcome.returned)

/-! ## The input handler -/

/-- The loop `for idx, binding := range bindingArray` of the input handler: every binding
that matches the event runs the action at the same index.  `Setup` builds the two arrays
with equal lengths, so an index is never out of range. -/
def dispatch {σ : Type} (vm : LayersViewModel σ) (height : Int) (event : EventKey) :
    List KeyBinding → List KeyAction → LayerList × σ → LayerList × σ
  | binding :: bindings, action :: actions, st =>
    dispatch vm height event bindings actions
      (if binding.Match event then (KeyAction.run vm height action st).2 else st)
  | _, _, st => st

/-- The `switch event.Key()` of the input handler. -/
def arrowKeys {σ : Type} (vm : LayersViewModel σ) (height : Int) (event : EventKey)
    (ll : LayerList) (s : σ) : LayerList × σ :=
  match event.Key with
  | Key.KeyUp | Key.KeyLeft =>
    let r := vm.SetLayerIndex (ll.cmpIndex - 1) s
    if r.1 then ((keyUp ll).2, r.2) else (ll, r.2)
  | Key.KeyDown | Key.KeyRight =>
    let r := vm.SetLayerIndex (ll.cmpIndex + 1) s
    if r.1 then ((keyDown vm height ll r.2).2, r.2) else (ll, r.2)
  | Key.other _ => (ll, s)

/-- The closure that `Setup` assigns to `inputHandler`, applied to one key event. -/
def inputHandler {σ : Type} (vm : LayersViewModel σ) (height : Int) (h : Handler)
    (event : EventKey) (st : LayerList × σ) : LayerList × σ :=
  dispatch vm height event h.bindingArray h.actionArray (arrowKeys vm height event st.1 st.2)

/-- A finite sequence of key events through the input handler, left to right. -/
def runEvents {σ : Type} (vm : LayersViewModel σ) (height : Int) (h : Handler) :
    List EventKey → LayerList × σ → LayerList × σ
  | [], st => st
  | event :: events, st => runEvents vm height h events (inputHandler vm height h event st)

/-! ## Drawing -/

/-- The values of `tcell.Color` that `Draw` uses for `cmpColor`. -/
inductive Color
  | ColorRed
  | ColorBlue
  | ColorDefault
  deriving DecidableEq, Repr

/-- The `switch` of `Draw` that chooses `cmpColor` for a row. -/
def cmpColor (layerIndex cmpIndex : Int) (mode : LayerCompareMode) : Color :=
  if layerIndex = cmpIndex then Color.ColorRed
  else if layerIndex > 0 ∧ layerIndex < cmpIndex ∧ mode = LayerCompareMode.CompareAllLayers then
    Color.ColorRed
  else if layerIndex < cmpIndex then Color.ColorBlue
  else Color.ColorDefault

/-- One line printed by `Draw`: the row offset, the index read from the printable layers,
the layer read there and the colour passed to `tview.Print`. -/
structure DrawnLine where
  yIndex : Nat
  layerIndex : Int
  layer : String
  cmpColor : Color
  deriving DecidableEq, Repr

/-- The loop of `Draw` over the row offsets: it stops at the first index past the end of the
list; `none` is the run-time panic of reading a slice at an index out of range.  The inner
loop over the columns only swaps foreground and background of cells and is left out. -/
def drawLoop (printableLayers : List String) (mode : LayerCompareMode) (ll : LayerList) :
    List Nat → Option (List DrawnLine)
  | [] => some []
  | yIndex :: rest =>
    let layerIndex : Int := ll.bufferIndexLowerBound + (yIndex : Int)
    if layerIndex ≥ (printableLayers.length : Int) then
      some []
    else if layerIndex < 0 then
      none
    else
      match printableLayers[layerIndex.toNat]? with
      | none => none
      | some layer =>
        match drawLoop printableLayers mode ll rest with
        | none => none
        | some lines =>
          some ({ yIndex := yIndex, layerIndex := layerIndex, layer := layer,
                  cmpColor := Dive.cmpColor layerIndex ll.cmpIndex mode } :: lines)

/-- Method `Draw`, as the lines it prints for the rows `0 ≤ yIndex < height`. -/
def Draw {σ : Type} (vm : LayersViewModel σ) (height : Int) (ll : LayerList) (s : σ) :
    Option (List DrawnLine) :=
  drawLoop (vm.GetPrintableLayers s) (vm.GetMode s) ll (List.range height.toNat)

/-! ## Navigation with a changing list and viewport -/

/-- A finite sequence of navigation calls in which every call comes with the viewport height
and the view-model state (hence the item count) found at that moment. -/
def runNavEnv {σ : Type} (vm : LayersViewModel σ) :
    List (Nav × Int × σ) → LayerList → LayerList
  | [], ll => ll
  | (op, height, s) :: rest, ll => runNavEnv vm rest (Nav.call vm height op (ll, s)).2.1

/-- A configuration that resolves every name but `keybinding.page-up`, to a binding that
matches the key with code 0. -/
def configMissingPageUp : KeyBindingConfig where
  GetKeyBinding name :=
    if name = "keybinding.page-up" then Except.error "keybinding not found"
    else Except.ok { Match := fun event => decide (event.Key = Key.other 0) }

/-- A binding that matches exactly the events whose key is the one with the given code. -/
def keyBindingFor (code : Nat) : KeyBinding where
  Match event := decide (event.Key = Key.other code)

/-- A handler as `Setup` builds it from a configuration that binds the four actions to the
keys with codes 1 to 4. -/
def sampleHandler : Handler where
  bindingArray := [keyBindingFor 1, keyBindingFor 2, keyBindingFor 3, keyBindingFor 4]
  actionArray := [KeyAction.pageUp, KeyAction.pageDown, KeyAction.compareAll,
    KeyAction.compareLayer]

/-- A configuration that binds the four actions to the keys with codes 1 to 4. -/
def sampleConfig : KeyBindingConfig where
  GetKeyBinding name :=
    if name = "keybinding.page-up" then Except.ok (keyBindingFor 1)
    else if name = "keybinding.page-down" then Except.ok (keyBindingFor 2)
    else if name = "keybinding.compare-all" then Except.ok (keyBindingFor 3)
    else if name = "keybinding.compare-layer" then Except.ok (keyBindingFor 4)
    else Except.error "keybinding not found"

/-! ## Invariants of the reachable states -/

/-- One navigation call keeps `cmpIndex` inside the list. -/
theorem call_cmpIndex_in_range {σ : Type} (vm : LayersViewModel σ) (n : Nat) (height : Int)
    (hh : 0 ≤ height) (hlen : ∀ s, (vm.GetPrintableLayers s).length = n)
    (op : Nav) (ll : LayerList) (s : σ)
    (h : 0 ≤ ll.cmpIndex ∧ ll.cmpIndex < (n : Int)) :
    0 ≤ (Nav.call vm height op (ll, s)).2.1.cmpIndex ∧
      (Nav.call vm height op (ll, s)).2.1.cmpIndex < (n : Int) := by
  obtain ⟨h0, h1⟩ := h
  cases op
  · simp only [Nav.call, keyUp]
    split_ifs <;> simp only <;> omega
  · simp only [Nav.call, keyDown, hlen]
    split_ifs <;> simp only <;> omega
  · simp only [Nav.call, pageUp, intMax]
    split_ifs <;> simp only <;> omega
  · simp only [Nav.call, pageDown, intMin, hlen]
    split_ifs <;> simp only <;> omega

/-- One navigation call keeps `cmpIndex` inside the list and inside the window. -/
theorem call_selection_visible {σ : Type} (vm : LayersViewModel σ) (n : Nat) (height : Int)
    (hh : 1 ≤ height) (hlen : ∀ s, (vm.GetPrintableLayers s).length = n)
    (op : Nav) (ll : LayerList) (s : σ)
    (h : (0 ≤ ll.cmpIndex ∧ ll.cmpIndex < (n : Int)) ∧
      ll.bufferIndexLowerBound ≤ ll.cmpIndex ∧
      ll.cmpIndex < ll.bufferIndexLowerBound + height) :
    (0 ≤ (Nav.call vm height op (ll, s)).2.1.cmpIndex ∧
      (Nav.call vm height op (ll, s)).2.1.cmpIndex < (n : Int)) ∧
    (Nav.call vm height op (ll, s)).2.1.bufferIndexLowerBound
      ≤ (Nav.call vm height op (ll, s)).2.1.cmpIndex ∧
    (Nav.call vm height op (ll, s)).2.1.cmpIndex
      < (Nav.call vm height op (ll, s)).2.1.bufferIndexLowerBound + height := by
  obtain ⟨⟨h0, h1⟩, h2, h3⟩ := h
  cases op
  · simp only [Nav.call, keyUp]
    split_ifs <;> simp only <;> omega
  · simp only [Nav.call, keyDown, hlen]
    split_ifs <;> simp only <;> omega
  · simp only [Nav.call, pageUp, intMax]
    split_ifs <;> simp only <;> omega
  · simp only [Nav.call, pageDown, intMin, hlen]
    split_ifs <;> simp only <;> omega

/-- C1. With a fixed item count `n ≥ 1` and a fixed viewport height `height ≥ 0`, every state
reached from the initial state (0, 0) by a finite sequence of `keyUp`, `keyDown`, `pageUp`
and `pageDown`, for any view model (so whatever `SetLayerIndex` answers), has
`0 ≤ cmpIndex < n`. -/
theorem cmpIndex_in_range_of_reachable {σ : Type} (vm : LayersViewModel σ) (n : Nat)
    (height : Int) (hn : 1 ≤ n) (hh : 0 ≤ height)
    (hlen : ∀ s, (vm.GetPrintableLayers s).length = n) (ops : List Nav) (s : σ) :
    0 ≤ (runNav vm height ops (NewLayerList, s)).1.cmpIndex ∧
      (runNav vm height ops (NewLayerList, s)).1.cmpIndex < (n : Int) := by
  have key : ∀ (ops : List Nav) (st : LayerList × σ),
      (0 ≤ st.1.cmpIndex ∧ st.1.cmpIndex < (n : Int)) →
      0 ≤ (runNav vm height ops st).1.cmpIndex ∧
        (runNav vm height ops st).1.cmpIndex < (n : Int) := by
    intro ops
    induction ops with
    | nil => intro st h; exact h
    | cons op ops ih =>
      intro st h
      obtain ⟨ll, t⟩ := st
      exact ih _ (call_cmpIndex_in_range vm n height hh hlen op ll t h)
  apply key
  simp only [NewLayerList]
  omega

/-- Witness of `cmpIndex_in_range_of_reachable`: three layers, viewport height two. -/
theorem cmpIndex_in_range_of_reachable_witness :
    1 ≤ 3 ∧ (0 : Int) ≤ 2 ∧
    (∀ s, ((boundedVM ["a", "b", "c"]).GetPrintableLayers s).length = 3) ∧
    0 ≤ (runNav (boundedVM ["a", "b", "c"]) 2 [Nav.pageDown, Nav.keyDown, Nav.keyUp, Nav.pageUp]
        (NewLayerList, sampleInit)).1.cmpIndex ∧
      (runNav (boundedVM ["a", "b", "c"]) 2 [Nav.pageDown, Nav.keyDown, Nav.keyUp, Nav.pageUp]
        (NewLayerList, sampleInit)).1.cmpIndex < ((3 : Nat) : Int) :=
  ⟨by decide, by decide, fun _ => rfl,
    cmpIndex_in_range_of_reachable (boundedVM ["a", "b", "c"]) 3 2 (by decide) (by decide)
      (fun _ => rfl) [Nav.pageDown, Nav.keyDown, Nav.keyUp, Nav.pageUp] sampleInit⟩

/-- C2. With a fixed item count `n ≥ 1` and a fixed viewport height `height ≥ 1`, every state
reached from the initial state (0, 0) by a finite sequence of `keyUp`, `keyDown`, `pageUp`
and `pageDown` keeps the selection visible:
`bufferIndexLowerBound ≤ cmpIndex < bufferIndexLowerBound + height`. -/
theorem selection_visible_of_reachable {σ : Type} (vm : LayersViewModel σ) (n : Nat)
    (height : Int) (hn : 1 ≤ n) (hh : 1 ≤ height)
    (hlen : ∀ s, (vm.GetPrintableLayers s).length = n) (ops : List Nav) (s : σ) :
    (runNav vm height ops (NewLayerList, s)).1.bufferIndexLowerBound
        ≤ (runNav vm height ops (NewLayerList, s)).1.cmpIndex ∧
      (runNav vm height ops (NewLayerList, s)).1.cmpIndex
        < (runNav vm height ops (NewLayerList, s)).1.bufferIndexLowerBound + height := by
  have key : ∀ (ops : List Nav) (st : LayerList × σ),
      ((0 ≤ st.1.cmpIndex ∧ st.1.cmpIndex < (n : Int)) ∧
        st.1.bufferIndexLowerBound ≤ st.1.cmpIndex ∧
        st.1.cmpIndex < st.1.bufferIndexLowerBound + height) →
      (runNav vm height ops st).1.bufferIndexLowerBound ≤ (runNav vm height ops st).1.cmpIndex ∧
        (runNav vm height ops st).1.cmpIndex
          < (runNav vm height ops st).1.bufferIndexLowerBound + height := by
    intro ops
    induction ops with
    | nil => intro st h; exact h.2
    | cons op ops ih =>
      intro st h
      obtain ⟨ll, t⟩ := st
      exact ih _ (call_selection_visible vm n height hh hlen op ll t h)
  apply key
  simp only [NewLayerList]
  omega

/-- Witness of `selection_visible_of_reachable`: three layers, viewport height two. -/
theorem selection_visible_of_reachable_witness :
    1 ≤ 3 ∧ (1 : Int) ≤ 2 ∧
    (∀ s, ((boundedVM ["a", "b", "c"]).GetPrintableLayers s).length = 3) ∧
    (runNav (boundedVM ["a", "b", "c"]) 2 [Nav.pageDown, Nav.keyDown, Nav.keyUp]
        (NewLayerList, sampleInit)).1.bufferIndexLowerBound
      ≤ (runNav (boundedVM ["a", "b", "c"]) 2 [Nav.pageDown, Nav.keyDown, Nav.keyUp]
        (NewLayerList, sampleInit)).1.cmpIndex ∧
    (runNav (boundedVM ["a", "b", "c"]) 2 [Nav.pageDown, Nav.keyDown, Nav.keyUp]
        (NewLayerList, sampleInit)).1.cmpIndex
      < (runNav (boundedVM ["a", "b", "c"]) 2 [Nav.pageDown, Nav.keyDown, Nav.keyUp]
        (NewLayerList, sampleInit)).1.bufferIndexLowerBound + 2 :=
  ⟨by decide, by decide, fun _ => rfl,
    selection_visible_of_reachable (boundedVM ["a", "b", "c"]) 3 2 (by decide) (by decide)
      (fun _ => rfl) [Nav.pageDown, Nav.keyDown, Nav.keyUp] sampleInit⟩

/-! ## Single-step moves -/

/-- C4. `keyUp`: when `cmpIndex ≤ 0` it answers false and leaves the widget unchanged;
otherwise it answers true, `cmpIndex` drops by one, and `bufferIndexLowerBound` drops by
exactly one when the new `cmpIndex` is below the old `bufferIndexLowerBound` and keeps its
value otherwise. -/
theorem keyUp_spec (ll : LayerList) :
    (ll.cmpIndex ≤ 0 → keyUp ll = (false, ll)) ∧
    (0 < ll.cmpIndex →
      (keyUp ll).1 = true ∧
      (keyUp ll).2.cmpIndex = ll.cmpIndex - 1 ∧
      (ll.cmpIndex - 1 < ll.bufferIndexLowerBound →
        (keyUp ll).2.bufferIndexLowerBound = ll.bufferIndexLowerBound - 1) ∧
      (¬ ll.cmpIndex - 1 < ll.bufferIndexLowerBound →
        (keyUp ll).2.bufferIndexLowerBound = ll.bufferIndexLowerBound)) := by
  refine ⟨fun h => ?_, fun h => ?_⟩
  · simp [keyUp, h]
  · have h0 : ¬ ll.cmpIndex ≤ 0 := not_le.mpr h
    refine ⟨?_, ?_, fun hb => ?_, fun hb => ?_⟩
    · simp [keyUp, h0]
    · simp only [keyUp, h0, if_false]
      split <;> rfl
    · simp [keyUp, h0, hb]
    · simp [keyUp, h0, hb]

/-- C5. `keyDown` with `n` items and viewport height `height`: when `cmpIndex + 1 ≥ n` it
answers false and leaves the widget unchanged; otherwise it answers true, `cmpIndex` grows
by one, and `bufferIndexLowerBound` grows by exactly one when the new `cmpIndex` minus the
old `bufferIndexLowerBound` is at least `height` and keeps its value otherwise. -/
theorem keyDown_spec {σ : Type} (vm : LayersViewModel σ) (height : Int) (ll : LayerList)
    (s : σ) (n : Nat) (hlen : (vm.GetPrintableLayers s).length = n) :
    (ll.cmpIndex + 1 ≥ (n : Int) → keyDown vm height ll s = (false, ll)) ∧
    (ll.cmpIndex + 1 < (n : Int) →
      (keyDown vm height ll s).1 = true ∧
      (keyDown vm height ll s).2.cmpIndex = ll.cmpIndex + 1 ∧
      (ll.cmpIndex + 1 - ll.bufferIndexLowerBound ≥ height →
        (keyDown vm height ll s).2.bufferIndexLowerBound = ll.bufferIndexLowerBound + 1) ∧
      (¬ ll.cmpIndex + 1 - ll.bufferIndexLowerBound ≥ height →
        (keyDown vm height ll s).2.bufferIndexLowerBound = ll.bufferIndexLowerBound)) := by
  refine ⟨fun h => ?_, fun h => ?_⟩
  · simp [keyDown, hlen, h]
  · have h0 : ¬ ll.cmpIndex + 1 ≥ (n : Int) := not_le.mpr h
    refine ⟨?_, ?_, fun hb => ?_, fun hb => ?_⟩
    · simp only [keyDown, hlen, h0, if_false]
    · simp only [keyDown, hlen, h0, if_false]
      split <;> rfl
    · simp only [keyDown, hlen, h0, if_false, hb, if_true]
    · simp only [keyDown, hlen, h0, if_false, hb]

/-- Witness of `keyDown_spec`: three layers, viewport height two. -/
theorem keyDown_spec_witness :
    ((boundedVM ["a", "b", "c"]).GetPrintableLayers sampleInit).length = 3 ∧
    (((1 : Int) + 1 ≥ ((3 : Nat) : Int) →
        keyDown (boundedVM ["a", "b", "c"]) 2 ⟨0, 1⟩ sampleInit = (false, ⟨0, 1⟩)) ∧
     ((1 : Int) + 1 < ((3 : Nat) : Int) →
      (keyDown (boundedVM ["a", "b", "c"]) 2 ⟨0, 1⟩ sampleInit).1 = true ∧
      (keyDown (boundedVM ["a", "b", "c"]) 2 ⟨0, 1⟩ sampleInit).2.cmpIndex = 1 + 1 ∧
      ((1 : Int) + 1 - 0 ≥ 2 →
        (keyDown (boundedVM ["a", "b", "c"]) 2 ⟨0, 1⟩ sampleInit).2.bufferIndexLowerBound
          = 0 + 1) ∧
      (¬ (1 : Int) + 1 - 0 ≥ 2 →
        (keyDown (boundedVM ["a", "b", "c"]) 2 ⟨0, 1⟩ sampleInit).2.bufferIndexLowerBound
          = 0))) :=
  ⟨rfl, keyDown_spec (boundedVM ["a", "b", "c"]) 2 ⟨0, 1⟩ sampleInit 3 rfl⟩

/-- Witness of `keyUp_spec`: selection 3 at the top of a window starting at 3. -/
theorem keyUp_spec_witness :
    (((3 : Int) ≤ 0 → keyUp ⟨3, 3⟩ = (false, ⟨3, 3⟩)) ∧
    ((0 : Int) < 3 →
      (keyUp ⟨3, 3⟩).1 = true ∧
      (keyUp ⟨3, 3⟩).2.cmpIndex = 3 - 1 ∧
      ((3 : Int) - 1 < 3 → (keyUp ⟨3, 3⟩).2.bufferIndexLowerBound = 3 - 1) ∧
      (¬ (3 : Int) - 1 < 3 → (keyUp ⟨3, 3⟩).2.bufferIndexLowerBound = 3))) ∧
    keyUp ⟨3, 3⟩ = (true, ⟨2, 2⟩) :=
  ⟨keyUp_spec ⟨3, 3⟩, by decide⟩

/-! ## Page moves -/

/-- On an empty list `pageDown` sets `cmpIndex` to -1, for every view model, height
`height ≥ 0` and window start, when the selection is at 0. -/
theorem pageDown_empty_list {σ : Type} (vm : LayersViewModel σ) (height : Int)
    (hh : 0 ≤ height) (hempty : ∀ s, vm.GetPrintableLayers s = []) (lb : Int) (s : σ) :
    (pageDown vm height ⟨lb, 0⟩ s).2.1.cmpIndex = -1 := by
  simp only [pageDown, intMin, hempty, List.length_nil]
  split_ifs <;> simp only <;> omega

/-- C3. Empty list, a view model that rejects every index request, initial state (0, 0):
`keyUp`, `keyDown` and `pageUp` answer false and leave both indices at 0, but `pageDown`,
while answering false, sets `cmpIndex` to -1 (here with viewport heights 0 and 4). -/
theorem pageDown_empty_list_cmpIndex_negative :
    keyUp NewLayerList = (false, NewLayerList) ∧
    keyDown (rejectingVM []) 4 NewLayerList sampleInit = (false, NewLayerList) ∧
    pageUp (rejectingVM []) 4 NewLayerList sampleInit = (false, NewLayerList, sampleInit) ∧
    pageDown (rejectingVM []) 4 NewLayerList sampleInit
      = (false, { bufferIndexLowerBound := 0, cmpIndex := -1 }, sampleInit) ∧
    pageDown (rejectingVM []) 0 NewLayerList sampleInit
      = (false, { bufferIndexLowerBound := 0, cmpIndex := -1 }, sampleInit) := by
  decide

/-- C6. `pageDown` with `n` items, height `height ≥ 0` and `bufferIndexLowerBound ≥ 0`:
whenever the branch that assigns `bufferIndexLowerBound` is taken (the new `cmpIndex` is at
least the old `bufferIndexLowerBound + height`), the assigned value is
`intMin cmpIndex (n - 1 - height + 1)` and the new window ends at or before the last item:
`bufferIndexLowerBound + height - 1 ≤ n - 1`. -/
theorem pageDown_window_within_list {σ : Type} (vm : LayersViewModel σ) (height : Int)
    (ll : LayerList) (s : σ) (n : Nat) (hlen : (vm.GetPrintableLayers s).length = n)
    (_hh : 0 ≤ height) (_hlb : 0 ≤ ll.bufferIndexLowerBound)
    (hassign : intMin (ll.cmpIndex + height) ((n : Int) - 1)
      ≥ ll.bufferIndexLowerBound + height) :
    (pageDown vm height ll s).2.1.bufferIndexLowerBound
        = intMin (intMin (ll.cmpIndex + height) ((n : Int) - 1)) ((n : Int) - 1 - height + 1) ∧
      (pageDown vm height ll s).2.1.bufferIndexLowerBound + height - 1 ≤ (n : Int) - 1 := by
  have hb : (pageDown vm height ll s).2.1.bufferIndexLowerBound
      = intMin (intMin (ll.cmpIndex + height) ((n : Int) - 1)) ((n : Int) - 1 - height + 1) := by
    simp only [pageDown, hlen, hassign, if_true]
  refine ⟨hb, ?_⟩
  rw [hb]
  simp only [intMin]
  split_ifs <;> omega

/-- Witness of `pageDown_window_within_list`: ten layers, height 4, selection 6, window 3. -/
theorem pageDown_window_within_list_witness :
    ((boundedVM tenLayers).GetPrintableLayers sampleInit).length = 10 ∧
    (0 : Int) ≤ 4 ∧ (0 : Int) ≤ 3 ∧
    intMin (6 + 4) (((10 : Nat) : Int) - 1) ≥ 3 + 4 ∧
    (pageDown (boundedVM tenLayers) 4 ⟨3, 6⟩ sampleInit).2.1.bufferIndexLowerBound
        = intMin (intMin (6 + 4) (((10 : Nat) : Int) - 1)) (((10 : Nat) : Int) - 1 - 4 + 1) ∧
      (pageDown (boundedVM tenLayers) 4 ⟨3, 6⟩ sampleInit).2.1.bufferIndexLowerBound + 4 - 1
        ≤ ((10 : Nat) : Int) - 1 :=
  ⟨rfl, by decide, by decide, by decide,
    pageDown_window_within_list (boundedVM tenLayers) 4 ⟨3, 6⟩ sampleInit 10 rfl
      (by decide) (by decide) (by decide)⟩

/-- C7, as stated, fails: five layers, viewport height 0, selection 3 in a window starting
at 1 (so `0 ≤ bufferIndexLowerBound ≤ cmpIndex < n`); `pageDown` moves
`bufferIndexLowerBound` from 1 to 3. -/
theorem pageDown_height_zero_moves_window :
    (1 ≤ 5 ∧ (0 : Int) ≤ 1 ∧ (1 : Int) ≤ 3 ∧ (3 : Int) < 5) ∧
    ((boundedVM ["a", "b", "c", "d", "e"]).GetPrintableLayers sampleInit).length = 5 ∧
    (pageDown (boundedVM ["a", "b", "c", "d", "e"]) 0
        { bufferIndexLowerBound := 1, cmpIndex := 3 } sampleInit).2.1
      = { bufferIndexLowerBound := 3, cmpIndex := 3 } ∧
    (pageDown (boundedVM ["a", "b", "c", "d", "e"]) 0
        { bufferIndexLowerBound := 1, cmpIndex := 3 } sampleInit).2.1.bufferIndexLowerBound
      ≠ 1 := by
  decide

/-- C7, amended. With viewport height 0, `n ≥ 1` items and
`0 ≤ bufferIndexLowerBound ≤ cmpIndex < n`: `pageUp` leaves `cmpIndex` and
`bufferIndexLowerBound` unchanged; `pageDown` leaves `cmpIndex` unchanged and sets
`bufferIndexLowerBound` to `cmpIndex`, so it leaves the window in place exactly when
`bufferIndexLowerBound = cmpIndex`. -/
theorem page_moves_height_zero {σ : Type} (vm : LayersViewModel σ) (ll : LayerList)
    (s : σ) (n : Nat) (hlen : (vm.GetPrintableLayers s).length = n) (_hn : 1 ≤ n)
    (hlb : 0 ≤ ll.bufferIndexLowerBound) (hle : ll.bufferIndexLowerBound ≤ ll.cmpIndex)
    (hlt : ll.cmpIndex < (n : Int)) :
    (pageUp vm 0 ll s).2.1 = ll ∧
    (pageDown vm 0 ll s).2.1.cmpIndex = ll.cmpIndex ∧
    (pageDown vm 0 ll s).2.1.bufferIndexLowerBound = ll.cmpIndex ∧
    ((pageDown vm 0 ll s).2.1 = ll ↔ ll.bufferIndexLowerBound = ll.cmpIndex) := by
  have hcu : intMax 0 (ll.cmpIndex - 0) = ll.cmpIndex := by
    simp only [intMax]; split_ifs <;> omega
  have hcd : intMin (ll.cmpIndex + 0) ((n : Int) - 1) = ll.cmpIndex := by
    simp only [intMin]; split_ifs <;> omega
  have hwd : intMin ll.cmpIndex ((n : Int) - 1 - 0 + 1) = ll.cmpIndex := by
    simp only [intMin]; split_ifs <;> omega
  have hge : ll.cmpIndex ≥ ll.bufferIndexLowerBound + 0 := by omega
  have hnlt : ¬ ll.cmpIndex < ll.bufferIndexLowerBound := by omega
  have hd : (pageDown vm 0 ll s).2.1
      = { bufferIndexLowerBound := ll.cmpIndex, cmpIndex := ll.cmpIndex } := by
    simp only [pageDown, hlen, hcd, hge, if_true, hwd]
  refine ⟨?_, ?_, ?_, ?_⟩
  · simp only [pageUp, hcu, hnlt, if_false]
  · rw [hd]
  · rw [hd]
  · rw [hd]
    constructor
    · intro h
      have := congrArg LayerList.bufferIndexLowerBound h
      simpa using this.symm
    · intro h
      cases ll
      simp only at h
      simp [h]

/-- Witness of `page_moves_height_zero`: five layers, selection 3, window starting at 1. -/
theorem page_moves_height_zero_witness :
    ((boundedVM ["a", "b", "c", "d", "e"]).GetPrintableLayers sampleInit).length = 5 ∧
    1 ≤ 5 ∧ (0 : Int) ≤ 1 ∧ (1 : Int) ≤ 3 ∧ (3 : Int) < ((5 : Nat) : Int) ∧
    (pageUp (boundedVM ["a", "b", "c", "d", "e"]) 0 ⟨1, 3⟩ sampleInit).2.1 = ⟨1, 3⟩ ∧
    (pageDown (boundedVM ["a", "b", "c", "d", "e"]) 0 ⟨1, 3⟩ sampleInit).2.1.cmpIndex = 3 ∧
    (pageDown (boundedVM ["a", "b", "c", "d", "e"]) 0 ⟨1, 3⟩
      sampleInit).2.1.bufferIndexLowerBound = 3 ∧
    ((pageDown (boundedVM ["a", "b", "c", "d", "e"]) 0 ⟨1, 3⟩ sampleInit).2.1 = ⟨1, 3⟩
      ↔ (1 : Int) = 3) :=
  ⟨rfl, by decide, by decide, by decide, by decide,
    page_moves_height_zero (boundedVM ["a", "b", "c", "d", "e"]) ⟨1, 3⟩ sampleInit 5 rfl
      (by decide) (by decide) (by decide) (by decide)⟩

/-! ## Comparison-mode actions -/

/-- C8. For every view model, with its state-changing calls logged: the compare-all action
in mode `CompareAllLayers` and the compare-layer action in mode `CompareSingleLayer` answer
false, make no call to `SwitchMode` (the log is unchanged) and leave the view-model state, and
so the mode, unchanged; compare-all in `CompareSingleLayer` and compare-layer in
`CompareAllLayers` answer true and call `SwitchMode` exactly once. -/
theorem compare_actions_guarded {σ : Type} (vm : LayersViewModel σ) (s : σ)
    (log : List Call) :
    (vm.GetMode s = LayerCompareMode.CompareAllLayers →
      compareAll (recording vm) (s, log) = (false, (s, log)) ∧
      (recording vm).GetMode (compareAll (recording vm) (s, log)).2
        = LayerCompareMode.CompareAllLayers) ∧
    (vm.GetMode s = LayerCompareMode.CompareSingleLayer →
      compareLayer (recording vm) (s, log) = (false, (s, log)) ∧
      (recording vm).GetMode (compareLayer (recording vm) (s, log)).2
        = LayerCompareMode.CompareSingleLayer) ∧
    (vm.GetMode s = LayerCompareMode.CompareSingleLayer →
      compareAll (recording vm) (s, log)
        = (true, (vm.SwitchMode s, log ++ [Call.SwitchMode]))) ∧
    (vm.GetMode s = LayerCompareMode.CompareAllLayers →
      compareLayer (recording vm) (s, log)
        = (true, (vm.SwitchMode s, log ++ [Call.SwitchMode]))) := by
  refine ⟨fun h => ?_, fun h => ?_, fun h => ?_, fun h => ?_⟩
  · simp [compareAll, recording, h]
  · simp [compareLayer, recording, h]
  · simp [compareAll, recording, h]
  · simp [compareLayer, recording, h]

/-- Witness of `compare_actions_guarded`: the sample view model in mode
`CompareSingleLayer`, where compare-layer does nothing and compare-all switches. -/
theorem compare_actions_guarded_witness :
    (boundedVM tenLayers).GetMode sampleInit = LayerCompareMode.CompareSingleLayer ∧
    compareLayer (recording (boundedVM tenLayers)) (sampleInit, []) = (false, (sampleInit, [])) ∧
    compareAll (recording (boundedVM tenLayers)) (sampleInit, [])
      = (true, ((boundedVM tenLayers).SwitchMode sampleInit, [] ++ [Call.SwitchMode])) :=
  ⟨rfl,
    ((compare_actions_guarded (boundedVM tenLayers) sampleInit []).2.1 rfl).1,
    (compare_actions_guarded (boundedVM tenLayers) sampleInit []).2.2.1 rfl⟩

/-- C9. For a view model whose `SwitchMode` flips between the two modes, starting in
`CompareSingleLayer`: the compare-all action answers true and yields `CompareAllLayers`; the
compare-layer action applied next answers true and yields `CompareSingleLayer`, the mode
the round trip started from. -/
theorem compare_round_trip {σ : Type} (vm : LayersViewModel σ)
    (hflip : ∀ s, vm.GetMode (vm.SwitchMode s) = (vm.GetMode s).other) (s : σ)
    (hs : vm.GetMode s = LayerCompareMode.CompareSingleLayer) :
    (compareAll vm s).1 = true ∧
    vm.GetMode (compareAll vm s).2 = LayerCompareMode.CompareAllLayers ∧
    (compareLayer vm (compareAll vm s).2).1 = true ∧
    vm.GetMode (compareLayer vm (compareAll vm s).2).2 = LayerCompareMode.CompareSingleLayer ∧
    vm.GetMode (compareLayer vm (compareAll vm s).2).2 = vm.GetMode s := by
  have h1 : compareAll vm s = (true, vm.SwitchMode s) := by
    simp [compareAll, hs]
  have h2 : vm.GetMode (vm.SwitchMode s) = LayerCompareMode.CompareAllLayers := by
    rw [hflip, hs]; rfl
  have h3 : compareLayer vm (vm.SwitchMode s) = (true, vm.SwitchMode (vm.SwitchMode s)) := by
    simp [compareLayer, h2]
  have h4 : vm.GetMode (vm.SwitchMode (vm.SwitchMode s))
      = LayerCompareMode.CompareSingleLayer := by
    rw [hflip, h2]; rfl
  rw [h1]
  simp only
  rw [h3]
  simp only
  exact ⟨trivial, h2, trivial, h4, by rw [h4, hs]⟩

/-- Witness of `compare_round_trip`: the sample view model, started in
`CompareSingleLayer`. -/
theorem compare_round_trip_witness :
    (∀ s, (boundedVM tenLayers).GetMode ((boundedVM tenLayers).SwitchMode s)
      = ((boundedVM tenLayers).GetMode s).other) ∧
    (boundedVM tenLayers).GetMode sampleInit = LayerCompareMode.CompareSingleLayer ∧
    (compareAll (boundedVM tenLayers) sampleInit).1 = true ∧
    (boundedVM tenLayers).GetMode (compareAll (boundedVM tenLayers) sampleInit).2
      = LayerCompareMode.CompareAllLayers ∧
    (compareLayer (boundedVM tenLayers) (compareAll (boundedVM tenLayers) sampleInit).2).1
      = true ∧
    (boundedVM tenLayers).GetMode
        (compareLayer (boundedVM tenLayers) (compareAll (boundedVM tenLayers) sampleInit).2).2
      = LayerCompareMode.CompareSingleLayer ∧
    (boundedVM tenLayers).GetMode
        (compareLayer (boundedVM tenLayers) (compareAll (boundedVM tenLayers) sampleInit).2).2
      = (boundedVM tenLayers).GetMode sampleInit :=
  ⟨fun _ => rfl, rfl, compare_round_trip (boundedVM tenLayers) (fun _ => rfl) sampleInit rfl⟩

/-! ## A worked scenario -/

/-- C10. Ten items, viewport height 4, initial state (0, 0): six `keyDown` calls each answer
true and lead through selections 1 to 6, ending with `cmpIndex = 6` and
`bufferIndexLowerBound = 3`; one `pageUp` then gives `cmpIndex = 2` and
`bufferIndexLowerBound = 2`. -/
theorem scenario_ten_items {σ : Type} (vm : LayersViewModel σ)
    (hlen : ∀ s, (vm.GetPrintableLayers s).length = 10) (s : σ) :
    keyDown vm 4 NewLayerList s = (true, { bufferIndexLowerBound := 0, cmpIndex := 1 }) ∧
    keyDown vm 4 { bufferIndexLowerBound := 0, cmpIndex := 1 } s
      = (true, { bufferIndexLowerBound := 0, cmpIndex := 2 }) ∧
    keyDown vm 4 { bufferIndexLowerBound := 0, cmpIndex := 2 } s
      = (true, { bufferIndexLowerBound := 0, cmpIndex := 3 }) ∧
    keyDown vm 4 { bufferIndexLowerBound := 0, cmpIndex := 3 } s
      = (true, { bufferIndexLowerBound := 1, cmpIndex := 4 }) ∧
    keyDown vm 4 { bufferIndexLowerBound := 1, cmpIndex := 4 } s
      = (true, { bufferIndexLowerBound := 2, cmpIndex := 5 }) ∧
    keyDown vm 4 { bufferIndexLowerBound := 2, cmpIndex := 5 } s
      = (true, { bufferIndexLowerBound := 3, cmpIndex := 6 }) ∧
    runNav vm 4 [Nav.keyDown, Nav.keyDown, Nav.keyDown, Nav.keyDown, Nav.keyDown, Nav.keyDown]
        (NewLayerList, s)
      = ({ bufferIndexLowerBound := 3, cmpIndex := 6 }, s) ∧
    (pageUp vm 4 { bufferIndexLowerBound := 3, cmpIndex := 6 } s).2.1
      = { bufferIndexLowerBound := 2, cmpIndex := 2 } := by
  refine ⟨?_, ?_, ?_, ?_, ?_, ?_, ?_, ?_⟩ <;>
    simp [runNav, Nav.call, keyDown, pageUp, intMax, NewLayerList, hlen]

/-- Witness of `scenario_ten_items`: the sample view model with ten layers. -/
theorem scenario_ten_items_witness :
    (∀ s, ((boundedVM tenLayers).GetPrintableLayers s).length = 10) ∧
    runNav (boundedVM tenLayers) 4
        [Nav.keyDown, Nav.keyDown, Nav.keyDown, Nav.keyDown, Nav.keyDown, Nav.keyDown]
        (NewLayerList, sampleInit)
      = ({ bufferIndexLowerBound := 3, cmpIndex := 6 }, sampleInit) ∧
    (pageUp (boundedVM tenLayers) 4 { bufferIndexLowerBound := 3, cmpIndex := 6 }
        sampleInit).2.1
      = { bufferIndexLowerBound := 2, cmpIndex := 2 } :=
  ⟨fun _ => rfl,
    (scenario_ten_items (boundedVM tenLayers) (fun _ => rfl) sampleInit).2.2.2.2.2.2.1,
    (scenario_ten_items (boundedVM tenLayers) (fun _ => rfl) sampleInit).2.2.2.2.2.2.2⟩

/-! ## Page moves, in full -/

/-- The helper `intMax` is the maximum. -/
theorem intMax_eq_max (a b : Int) : intMax a b = max a b := by
  simp only [intMax]
  split_ifs <;> omega

/-- The helper `intMin` is the minimum. -/
theorem intMin_eq_min (a b : Int) : intMin a b = min a b := by
  simp only [intMin]
  split_ifs <;> omega

/-- C11. `pageUp`, for every view model (with its state-changing calls logged), state and
viewport height: the new `cmpIndex` is `max 0 (cmpIndex - height)`; `bufferIndexLowerBound`
becomes the new `cmpIndex` when that is less than the old `bufferIndexLowerBound` and is
unchanged otherwise; `SetLayerIndex` is called once, with the new `cmpIndex`, and `pageUp`
returns the answer of that call. -/
theorem pageUp_spec {σ : Type} (vm : LayersViewModel σ) (height : Int) (ll : LayerList)
    (s : σ) (log : List Call) :
    pageUp (recording vm) height ll (s, log)
      = ((vm.SetLayerIndex (max 0 (ll.cmpIndex - height)) s).1,
         { bufferIndexLowerBound :=
             if max 0 (ll.cmpIndex - height) < ll.bufferIndexLowerBound then
               max 0 (ll.cmpIndex - height)
             else ll.bufferIndexLowerBound,
           cmpIndex := max 0 (ll.cmpIndex - height) },
         ((vm.SetLayerIndex (max 0 (ll.cmpIndex - height)) s).2,
          log ++ [Call.SetLayerIndex (max 0 (ll.cmpIndex - height))])) := by
  simp only [pageUp, recording, intMax_eq_max]
  split_ifs <;> rfl

/-- C12. `pageDown`, for every view model (with its state-changing calls logged), state and
viewport height, with `n` the number of printable layers: the new `cmpIndex` is
`min (cmpIndex + height) (n - 1)`; when the new `cmpIndex` is at least the old
`bufferIndexLowerBound + height`, `bufferIndexLowerBound` becomes
`min (new cmpIndex) ((n - 1) - height + 1)`, otherwise it is unchanged; `SetLayerIndex` is
called once, with the new `cmpIndex`, and `pageDown` returns the answer of that call. -/
theorem pageDown_spec {σ : Type} (vm : LayersViewModel σ) (height : Int) (ll : LayerList)
    (s : σ) (log : List Call) :
    pageDown (recording vm) height ll (s, log)
      = ((vm.SetLayerIndex
            (min (ll.cmpIndex + height) (((vm.GetPrintableLayers s).length : Int) - 1)) s).1,
         { bufferIndexLowerBound :=
             if min (ll.cmpIndex + height) (((vm.GetPrintableLayers s).length : Int) - 1)
                 ≥ ll.bufferIndexLowerBound + height then
               min (min (ll.cmpIndex + height) (((vm.GetPrintableLayers s).length : Int) - 1))
                 ((((vm.GetPrintableLayers s).length : Int) - 1) - height + 1)
             else ll.bufferIndexLowerBound,
           cmpIndex :=
             min (ll.cmpIndex + height) (((vm.GetPrintableLayers s).length : Int) - 1) },
         ((vm.SetLayerIndex
            (min (ll.cmpIndex + height) (((vm.GetPrintableLayers s).length : Int) - 1)) s).2,
          log ++ [Call.SetLayerIndex
            (min (ll.cmpIndex + height) (((vm.GetPrintableLayers s).length : Int) - 1))])) := by
  simp only [pageDown, recording, intMin_eq_min]
  split_ifs <;> rfl

/-! ## Drawing -/

/-- Every line printed by the loop of `Draw` reads the list at
`bufferIndexLowerBound + yIndex`, an index of the list, and carries the colour that
`cmpColor` gives for that index. -/
theorem drawLoop_line (printableLayers : List String) (mode : LayerCompareMode)
    (ll : LayerList) :
    ∀ (ys : List Nat) (lines : List DrawnLine),
      drawLoop printableLayers mode ll ys = some lines →
      ∀ l ∈ lines,
        l.cmpColor = cmpColor l.layerIndex ll.cmpIndex mode ∧
        l.layerIndex = ll.bufferIndexLowerBound + (l.yIndex : Int) ∧
        0 ≤ l.layerIndex ∧ l.layerIndex < (printableLayers.length : Int) := by
  intro ys
  induction ys with
  | nil =>
    intro lines h l hl
    simp only [drawLoop, Option.some.injEq] at h
    subst h
    simp at hl
  | cons y ys ih =>
    intro lines h l hl
    simp only [drawLoop] at h
    split_ifs at h with h1 h2
    · simp only [Option.some.injEq] at h
      subst h
      simp at hl
    · cases hget : printableLayers[(ll.bufferIndexLowerBound + (y : Int)).toNat]? with
      | none => simp [hget] at h
      | some layer =>
        cases hrest : drawLoop printableLayers mode ll ys with
        | none => simp [hget, hrest] at h
        | some rest =>
          simp only [hget, hrest, Option.some.injEq] at h
          subst h
          rcases List.mem_cons.mp hl with hl | hl
          · subst hl
            refine ⟨rfl, rfl, ?_, ?_⟩
            · simp only; omega
            · simp only; omega
          · exact ih rest hrest l hl

/-- With a window that starts at a non-negative index, the loop of `Draw` never reads the
list out of range. -/
theorem drawLoop_no_panic (printableLayers : List String) (mode : LayerCompareMode)
    (ll : LayerList) (hlb : 0 ≤ ll.bufferIndexLowerBound) :
    ∀ ys : List Nat, ∃ lines, drawLoop printableLayers mode ll ys = some lines := by
  intro ys
  induction ys with
  | nil => exact ⟨[], rfl⟩
  | cons y ys ih =>
    obtain ⟨rest, hrest⟩ := ih
    simp only [drawLoop]
    split_ifs with h1 h2
    · exact ⟨[], rfl⟩
    · omega
    · have hlt : (ll.bufferIndexLowerBound + (y : Int)).toNat < printableLayers.length := by
        omega
      rw [List.getElem?_eq_getElem hlt]
      simp only [hrest]
      exact ⟨_, rfl⟩

/-- C13. The colour `Draw` gives to a printed row with list index `i` is
`cmpColor i cmpIndex mode`, a function of these three values only: red when `i = cmpIndex`;
red when `0 < i < cmpIndex` in mode `CompareAllLayers`; blue when `i < cmpIndex` in mode
`CompareSingleLayer`; the default colour when `i > cmpIndex`. -/
theorem draw_colour_spec {σ : Type} (vm : LayersViewModel σ) (height : Int) (ll : LayerList)
    (s : σ) (lines : List DrawnLine) (hdraw : Draw vm height ll s = some lines)
    (l : DrawnLine) (hl : l ∈ lines) :
    l.cmpColor = cmpColor l.layerIndex ll.cmpIndex (vm.GetMode s) ∧
    (l.layerIndex = ll.cmpIndex → l.cmpColor = Color.ColorRed) ∧
    (0 < l.layerIndex → l.layerIndex < ll.cmpIndex →
      vm.GetMode s = LayerCompareMode.CompareAllLayers → l.cmpColor = Color.ColorRed) ∧
    (l.layerIndex < ll.cmpIndex →
      vm.GetMode s = LayerCompareMode.CompareSingleLayer → l.cmpColor = Color.ColorBlue) ∧
    (l.layerIndex > ll.cmpIndex → l.cmpColor = Color.ColorDefault) := by
  have hc := (drawLoop_line _ _ ll _ lines hdraw l hl).1
  refine ⟨hc, fun h => ?_, fun h0 h1 hm => ?_, fun h1 hm => ?_, fun h1 => ?_⟩
  · rw [hc]; simp [cmpColor, h]
  · have hne : ¬ l.layerIndex = ll.cmpIndex := by omega
    rw [hc]; simp [cmpColor, hne, h0, h1, hm]
  · have hne : ¬ l.layerIndex = ll.cmpIndex := by omega
    rw [hc]; simp [cmpColor, hne, h1, hm]
  · have hne : ¬ l.layerIndex = ll.cmpIndex := by omega
    have hnlt : ¬ l.layerIndex < ll.cmpIndex := by omega
    rw [hc]; simp [cmpColor, hne, hnlt]

/-- Witness of `draw_colour_spec`: ten layers, three rows, selection 2, the row of index 1
in mode `CompareSingleLayer`. -/
theorem draw_colour_spec_witness :
    Draw (boundedVM tenLayers) 3 ⟨0, 2⟩ sampleInit
      = some [⟨0, 0, "l0", Color.ColorBlue⟩, ⟨1, 1, "l1", Color.ColorBlue⟩,
          ⟨2, 2, "l2", Color.ColorRed⟩] ∧
    (⟨1, 1, "l1", Color.ColorBlue⟩ : DrawnLine)
      ∈ [(⟨0, 0, "l0", Color.ColorBlue⟩ : DrawnLine), ⟨1, 1, "l1", Color.ColorBlue⟩,
          ⟨2, 2, "l2", Color.ColorRed⟩] ∧
    ((1 : Int) < 2 → (boundedVM tenLayers).GetMode sampleInit
        = LayerCompareMode.CompareSingleLayer →
      (⟨1, 1, "l1", Color.ColorBlue⟩ : DrawnLine).cmpColor = Color.ColorBlue) :=
  ⟨by decide, by decide,
    (draw_colour_spec (boundedVM tenLayers) 3 ⟨0, 2⟩ sampleInit
      [⟨0, 0, "l0", Color.ColorBlue⟩, ⟨1, 1, "l1", Color.ColorBlue⟩,
        ⟨2, 2, "l2", Color.ColorRed⟩] (by decide) ⟨1, 1, "l1", Color.ColorBlue⟩
      (by decide)).2.2.2.1⟩

/-- C14, as stated, fails: ten layers, three rows, selection 2, mode `CompareAllLayers`;
the row of index 0 lies in `0 ≤ i ≤ cmpIndex` and is printed blue. -/
theorem draw_all_layers_row_zero_blue :
    (boundedVM tenLayers).GetMode
        { layerIndex := 2, mode := LayerCompareMode.CompareAllLayers }
      = LayerCompareMode.CompareAllLayers ∧
    Draw (boundedVM tenLayers) 3 { bufferIndexLowerBound := 0, cmpIndex := 2 }
        { layerIndex := 2, mode := LayerCompareMode.CompareAllLayers }
      = some [{ yIndex := 0, layerIndex := 0, layer := "l0", cmpColor := Color.ColorBlue },
          { yIndex := 1, layerIndex := 1, layer := "l1", cmpColor := Color.ColorRed },
          { yIndex := 2, layerIndex := 2, layer := "l2", cmpColor := Color.ColorRed }] := by
  decide

/-- C14, amended. In mode `CompareAllLayers`, every printed row with list index `i` and
`0 < i ≤ cmpIndex` is red, and so is the row of index 0 when `cmpIndex = 0`; the row of
index 0 is blue when `0 < cmpIndex`: the base layer is not marked as included. -/
theorem draw_all_layers_colours {σ : Type} (vm : LayersViewModel σ) (height : Int)
    (ll : LayerList) (s : σ) (lines : List DrawnLine)
    (hmode : vm.GetMode s = LayerCompareMode.CompareAllLayers)
    (hdraw : Draw vm height ll s = some lines) (l : DrawnLine) (hl : l ∈ lines) :
    (0 < l.layerIndex → l.layerIndex ≤ ll.cmpIndex → l.cmpColor = Color.ColorRed) ∧
    (l.layerIndex = 0 → ll.cmpIndex = 0 → l.cmpColor = Color.ColorRed) ∧
    (l.layerIndex = 0 → 0 < ll.cmpIndex → l.cmpColor = Color.ColorBlue) := by
  have hc := (drawLoop_line _ _ ll _ lines hdraw l hl).1
  rw [hmode] at hc
  refine ⟨fun h0 h1 => ?_, fun h0 h1 => ?_, fun h0 h1 => ?_⟩
  · rw [hc]
    by_cases he : l.layerIndex = ll.cmpIndex
    · simp [cmpColor, he]
    · have hlt : l.layerIndex < ll.cmpIndex := by omega
      simp [cmpColor, he, h0, hlt]
  · rw [hc]; simp [cmpColor, h0, h1]
  · have hne : ¬ (0 : Int) = ll.cmpIndex := by omega
    rw [hc]; simp [cmpColor, h0, hne, h1]

/-- Witness of `draw_all_layers_colours`: ten layers, three rows, selection 2, mode
`CompareAllLayers`, the row of index 1. -/
theorem draw_all_layers_colours_witness :
    (boundedVM tenLayers).GetMode ⟨2, LayerCompareMode.CompareAllLayers⟩
      = LayerCompareMode.CompareAllLayers ∧
    Draw (boundedVM tenLayers) 3 ⟨0, 2⟩ ⟨2, LayerCompareMode.CompareAllLayers⟩
      = some [⟨0, 0, "l0", Color.ColorBlue⟩, ⟨1, 1, "l1", Color.ColorRed⟩,
          ⟨2, 2, "l2", Color.ColorRed⟩] ∧
    ((0 : Int) < 1 → (1 : Int) ≤ 2 →
      (⟨1, 1, "l1", Color.ColorRed⟩ : DrawnLine).cmpColor = Color.ColorRed) :=
  ⟨rfl, by decide,
    (draw_all_layers_colours (boundedVM tenLayers) 3 ⟨0, 2⟩
      ⟨2, LayerCompareMode.CompareAllLayers⟩
      [⟨0, 0, "l0", Color.ColorBlue⟩, ⟨1, 1, "l1", Color.ColorRed⟩,
        ⟨2, 2, "l2", Color.ColorRed⟩] rfl (by decide) ⟨1, 1, "l1", Color.ColorRed⟩
      (by decide)).1⟩

/-! ## The window stays inside the list -/

/-- One navigation call with a non-negative height keeps `bufferIndexLowerBound`
non-negative, whatever the item count and the selection. -/
theorem call_bufferIndexLowerBound_nonneg {σ : Type} (vm : LayersViewModel σ) (height : Int)
    (hh : 0 ≤ height) (op : Nav) (ll : LayerList) (s : σ)
    (h : 0 ≤ ll.bufferIndexLowerBound) :
    0 ≤ (Nav.call vm height op (ll, s)).2.1.bufferIndexLowerBound := by
  cases op
  · simp only [Nav.call, keyUp]
    split_ifs <;> simp only <;> omega
  · simp only [Nav.call, keyDown]
    split_ifs <;> simp only <;> omega
  · simp only [Nav.call, pageUp, intMax]
    split_ifs <;> simp only <;> omega
  · simp only [Nav.call, pageDown, intMin]
    split_ifs <;> simp only <;> omega

/-- C18. From the initial state (0, 0), after any finite sequence of `keyUp`, `keyDown`,
`pageUp` and `pageDown` in which every call has its own item count (any `n ≥ 0`) and its own
viewport height (any `height ≥ 0`), `bufferIndexLowerBound ≥ 0`; hence `Draw`, with any
height and list, does not read out of range: every index `bufferIndexLowerBound + yIndex` it
reads lies in `[0, len(printableLayers))`. -/
theorem bufferIndexLowerBound_nonneg_of_reachable {σ : Type} (vm : LayersViewModel σ)
    (steps : List (Nav × Int × σ)) (hh : ∀ e ∈ steps, 0 ≤ e.2.1) (height : Int) (s : σ) :
    0 ≤ (runNavEnv vm steps NewLayerList).bufferIndexLowerBound ∧
    ∃ lines, Draw vm height (runNavEnv vm steps NewLayerList) s = some lines ∧
      ∀ l ∈ lines,
        l.layerIndex
            = (runNavEnv vm steps NewLayerList).bufferIndexLowerBound + (l.yIndex : Int) ∧
          0 ≤ l.layerIndex ∧ l.layerIndex < ((vm.GetPrintableLayers s).length : Int) := by
  have key : ∀ (steps : List (Nav × Int × σ)) (ll : LayerList),
      (∀ e ∈ steps, 0 ≤ e.2.1) → 0 ≤ ll.bufferIndexLowerBound →
      0 ≤ (runNavEnv vm steps ll).bufferIndexLowerBound := by
    intro steps
    induction steps with
    | nil => intro ll _ h; exact h
    | cons e rest ih =>
      intro ll hs h
      obtain ⟨op, ht, t⟩ := e
      have h0 : 0 ≤ ht := hs (op, ht, t) (List.mem_cons_self _ _)
      exact ih _ (fun e he => hs e (List.mem_cons_of_mem _ he))
        (call_bufferIndexLowerBound_nonneg vm ht h0 op ll t h)
  have hlb : 0 ≤ (runNavEnv vm steps NewLayerList).bufferIndexLowerBound :=
    key steps NewLayerList hh (by simp [NewLayerList])
  refine ⟨hlb, ?_⟩
  obtain ⟨lines, hlines⟩ := drawLoop_no_panic (vm.GetPrintableLayers s) (vm.GetMode s)
    (runNavEnv vm steps NewLayerList) hlb (List.range height.toNat)
  refine ⟨lines, hlines, fun l hl => ?_⟩
  exact (drawLoop_line _ _ _ _ lines hlines l hl).2

/-- Witness of `bufferIndexLowerBound_nonneg_of_reachable`: the list has ten layers
throughout, the heights are 4, 0, 2 and 4. -/
theorem bufferIndexLowerBound_nonneg_of_reachable_witness :
    (∀ e ∈ [(Nav.pageDown, (4 : Int), sampleInit), (Nav.keyDown, 0, sampleInit),
        (Nav.keyUp, 2, sampleInit), (Nav.pageUp, 4, sampleInit)], 0 ≤ e.2.1) ∧
    0 ≤ (runNavEnv (boundedVM tenLayers)
        [(Nav.pageDown, 4, sampleInit), (Nav.keyDown, 0, sampleInit),
          (Nav.keyUp, 2, sampleInit), (Nav.pageUp, 4, sampleInit)]
        NewLayerList).bufferIndexLowerBound ∧
    ∃ lines, Draw (boundedVM tenLayers) 3 (runNavEnv (boundedVM tenLayers)
        [(Nav.pageDown, 4, sampleInit), (Nav.keyDown, 0, sampleInit),
          (Nav.keyUp, 2, sampleInit), (Nav.pageUp, 4, sampleInit)] NewLayerList) sampleInit
        = some lines ∧
      ∀ l ∈ lines,
        l.layerIndex
            = (runNavEnv (boundedVM tenLayers)
                [(Nav.pageDown, 4, sampleInit), (Nav.keyDown, 0, sampleInit),
                  (Nav.keyUp, 2, sampleInit), (Nav.pageUp, 4, sampleInit)]
                NewLayerList).bufferIndexLowerBound + (l.yIndex : Int) ∧
          0 ≤ l.layerIndex ∧
          l.layerIndex < (((boundedVM tenLayers).GetPrintableLayers sampleInit).length : Int) :=
  ⟨by decide,
    bufferIndexLowerBound_nonneg_of_reachable (boundedVM tenLayers)
      [(Nav.pageDown, 4, sampleInit), (Nav.keyDown, 0, sampleInit),
        (Nav.keyUp, 2, sampleInit), (Nav.pageUp, 4, sampleInit)] (by decide) 3 sampleInit⟩

/-- One navigation call keeps the selection inside the list and the window, and the window
inside the list, when the list is at least as long as the viewport. -/
theorem call_window_within_list {σ : Type} (vm : LayersViewModel σ) (n : Nat) (height : Int)
    (hh : 1 ≤ height) (hlen : ∀ s, (vm.GetPrintableLayers s).length = n)
    (op : Nav) (ll : LayerList) (s : σ)
    (h : (0 ≤ ll.cmpIndex ∧ ll.cmpIndex < (n : Int)) ∧
      (ll.bufferIndexLowerBound ≤ ll.cmpIndex ∧
        ll.cmpIndex < ll.bufferIndexLowerBound + height) ∧
      ll.bufferIndexLowerBound + height ≤ (n : Int)) :
    (0 ≤ (Nav.call vm height op (ll, s)).2.1.cmpIndex ∧
      (Nav.call vm height op (ll, s)).2.1.cmpIndex < (n : Int)) ∧
    ((Nav.call vm height op (ll, s)).2.1.bufferIndexLowerBound
        ≤ (Nav.call vm height op (ll, s)).2.1.cmpIndex ∧
      (Nav.call vm height op (ll, s)).2.1.cmpIndex
        < (Nav.call vm height op (ll, s)).2.1.bufferIndexLowerBound + height) ∧
    (Nav.call vm height op (ll, s)).2.1.bufferIndexLowerBound + height ≤ (n : Int) := by
  obtain ⟨⟨h0, h1⟩, ⟨h2, h3⟩, h4⟩ := h
  cases op
  · simp only [Nav.call, keyUp]
    split_ifs <;> simp only <;> omega
  · simp only [Nav.call, keyDown, hlen]
    split_ifs <;> simp only <;> omega
  · simp only [Nav.call, pageUp, intMax]
    split_ifs <;> simp only <;> omega
  · simp only [Nav.call, pageDown, intMin, hlen]
    split_ifs <;> simp only <;> omega

/-- C19. With a fixed item count `n` and a fixed viewport height `height`,
`n ≥ height ≥ 1`, every state reached from the initial state (0, 0) by a finite sequence of
`keyUp`, `keyDown`, `pageUp` and `pageDown` has `bufferIndexLowerBound + height ≤ n`: the
window shows no row past the end of the list. -/
theorem window_within_list_of_reachable {σ : Type} (vm : LayersViewModel σ) (n : Nat)
    (height : Int) (hh : 1 ≤ height) (hnh : height ≤ (n : Int))
    (hlen : ∀ s, (vm.GetPrintableLayers s).length = n) (ops : List Nav) (s : σ) :
    (runNav vm height ops (NewLayerList, s)).1.bufferIndexLowerBound + height ≤ (n : Int) := by
  have key : ∀ (ops : List Nav) (st : LayerList × σ),
      ((0 ≤ st.1.cmpIndex ∧ st.1.cmpIndex < (n : Int)) ∧
        (st.1.bufferIndexLowerBound ≤ st.1.cmpIndex ∧
          st.1.cmpIndex < st.1.bufferIndexLowerBound + height) ∧
        st.1.bufferIndexLowerBound + height ≤ (n : Int)) →
      (runNav vm height ops st).1.bufferIndexLowerBound + height ≤ (n : Int) := by
    intro ops
    induction ops with
    | nil => intro st h; exact h.2.2
    | cons op ops ih =>
      intro st h
      obtain ⟨ll, t⟩ := st
      exact ih _ (call_window_within_list vm n height hh hlen op ll t h)
  apply key
  simp only [NewLayerList]
  omega

/-- Witness of `window_within_list_of_reachable`: ten layers, viewport height 4. -/
theorem window_within_list_of_reachable_witness :
    (1 : Int) ≤ 4 ∧ (4 : Int) ≤ ((10 : Nat) : Int) ∧
    (∀ s, ((boundedVM tenLayers).GetPrintableLayers s).length = 10) ∧
    (runNav (boundedVM tenLayers) 4 [Nav.pageDown, Nav.pageDown, Nav.pageDown, Nav.keyDown]
        (NewLayerList, sampleInit)).1.bufferIndexLowerBound + 4 ≤ ((10 : Nat) : Int) :=
  ⟨by decide, by decide, fun _ => rfl,
    window_within_list_of_reachable (boundedVM tenLayers) 10 4 (by decide) (by decide)
      (fun _ => rfl) [Nav.pageDown, Nav.pageDown, Nav.pageDown, Nav.keyDown] sampleInit⟩

/-! ## The input handler -/

/-- When no binding matches the event, the loop over the bindings runs no action. -/
theorem dispatch_no_match {σ : Type} (vm : LayersViewModel σ) (height : Int)
    (event : EventKey) :
    ∀ (bindings : List KeyBinding) (actions : List KeyAction) (st : LayerList × σ),
      (∀ b ∈ bindings, b.Match event = false) →
      dispatch vm height event bindings actions st = st := by
  intro bindings
  induction bindings with
  | nil => intro actions st _; simp [dispatch]
  | cons b bs ih =>
    intro actions st h
    cases actions with
    | nil => simp [dispatch]
    | cons a as =>
      have hb : b.Match event = false := h b (List.mem_cons_self _ _)
      simp only [dispatch, hb]
      exact ih as st (fun b' hb' => h b' (List.mem_cons_of_mem _ hb'))

/-- C15, as stated, fails: three layers, a view model that rejects every index request,
selection 1, an Up event that no binding matches; the handler leaves `cmpIndex = 1`, while
`keyUp` on the prior state gives `cmpIndex = 0`. -/
theorem inputHandler_up_rejected_stays :
    (∀ b ∈ sampleHandler.bindingArray,
      b.Match { Key := Key.KeyUp, Rune := 'k', Modifiers := 0 } = false) ∧
    (inputHandler (rejectingVM ["a", "b", "c"]) 2 sampleHandler
        { Key := Key.KeyUp, Rune := 'k', Modifiers := 0 }
        ({ bufferIndexLowerBound := 0, cmpIndex := 1 }, sampleInit)).1
      = { bufferIndexLowerBound := 0, cmpIndex := 1 } ∧
    (keyUp { bufferIndexLowerBound := 0, cmpIndex := 1 }).2
      = { bufferIndexLowerBound := 0, cmpIndex := 0 } ∧
    (inputHandler (rejectingVM ["a", "b", "c"]) 2 sampleHandler
        { Key := Key.KeyUp, Rune := 'k', Modifiers := 0 }
        ({ bufferIndexLowerBound := 0, cmpIndex := 1 }, sampleInit)).1
      ≠ (keyUp { bufferIndexLowerBound := 0, cmpIndex := 1 }).2 := by
  decide

/-- C15, amended. For every pair of binding and action arrays (so whatever the
configuration), when no binding matches the event: on an Up or Left event the handler calls
`SetLayerIndex (cmpIndex - 1)` and the widget becomes the result of `keyUp` on the prior
state if the view model answers true, and stays as it was if it answers false; on a Down or
Right event the same holds with `SetLayerIndex (cmpIndex + 1)` and `keyDown`. -/
theorem inputHandler_arrow_keys {σ : Type} (vm : LayersViewModel σ) (height : Int)
    (h : Handler) (event : EventKey) (ll : LayerList) (s : σ)
    (hno : ∀ b ∈ h.bindingArray, b.Match event = false) :
    ((event.Key = Key.KeyUp ∨ event.Key = Key.KeyLeft) →
      inputHandler vm height h event (ll, s)
        = (if (vm.SetLayerIndex (ll.cmpIndex - 1) s).1 then (keyUp ll).2 else ll,
           (vm.SetLayerIndex (ll.cmpIndex - 1) s).2)) ∧
    ((event.Key = Key.KeyDown ∨ event.Key = Key.KeyRight) →
      inputHandler vm height h event (ll, s)
        = (if (vm.SetLayerIndex (ll.cmpIndex + 1) s).1 then
             (keyDown vm height ll (vm.SetLayerIndex (ll.cmpIndex + 1) s).2).2
           else ll,
           (vm.SetLayerIndex (ll.cmpIndex + 1) s).2)) := by
  refine ⟨fun hk => ?_, fun hk => ?_⟩
  · simp only [inputHandler]
    rw [dispatch_no_match vm height event _ _ _ hno]
    rcases hk with hk | hk <;> simp only [arrowKeys, hk] <;> split_ifs <;> rfl
  · simp only [inputHandler]
    rw [dispatch_no_match vm height event _ _ _ hno]
    rcases hk with hk | hk <;> simp only [arrowKeys, hk] <;> split_ifs <;> rfl

/-- Witness of `inputHandler_arrow_keys`: ten layers, a Down event that no binding
matches, accepted by the view model. -/
theorem inputHandler_arrow_keys_witness :
    (∀ b ∈ sampleHandler.bindingArray,
      b.Match { Key := Key.KeyDown, Rune := 'j', Modifiers := 0 } = false) ∧
    inputHandler (boundedVM tenLayers) 4 sampleHandler
        { Key := Key.KeyDown, Rune := 'j', Modifiers := 0 } (⟨0, 3⟩, sampleInit)
      = (if ((boundedVM tenLayers).SetLayerIndex (3 + 1) sampleInit).1 then
           (keyDown (boundedVM tenLayers) 4 ⟨0, 3⟩
             ((boundedVM tenLayers).SetLayerIndex (3 + 1) sampleInit).2).2
         else ⟨0, 3⟩,
         ((boundedVM tenLayers).SetLayerIndex (3 + 1) sampleInit).2) :=
  ⟨by decide,
    (inputHandler_arrow_keys (boundedVM tenLayers) 4 sampleHandler
      { Key := Key.KeyDown, Rune := 'j', Modifiers := 0 } ⟨0, 3⟩ sampleInit (by decide)).2
      (Or.inl rfl)⟩

/-! ## `Setup` -/

/-- The loop of `Setup` stops with an error as soon as one of its entries has a name that
the configuration does not resolve. -/
theorem bindLoop_error (config : KeyBindingConfig) :
    ∀ (entries : List (String × KeyAction)) (bs : List KeyBinding) (as : List KeyAction),
      (∃ e ∈ entries, ∃ err, config.GetKeyBinding e.1 = Except.error err) →
      ∃ msg, bindLoop config entries bs as = Except.error msg := by
  intro entries
  induction entries with
  | nil =>
    intro bs as h
    obtain ⟨e, he, _⟩ := h
    simp at he
  | cons e rest ih =>
    intro bs as h
    obtain ⟨name, action⟩ := e
    cases hget : config.GetKeyBinding name with
    | error err =>
      exact ⟨"setup error during " ++ name ++ ": " ++ err, by simp only [bindLoop, hget]⟩
    | ok binding =>
      simp only [bindLoop, hget]
      apply ih
      obtain ⟨e, he, err, herr⟩ := h
      rcases List.mem_cons.mp he with he | he
      · subst he
        simp only at herr
        rw [hget] at herr
        cases herr
      · exact ⟨e, he, err, herr⟩

/-- When the configuration resolves the name of every entry, the loop of `Setup` appends
the resolved bindings and the actions of the entries, in the order of the entries. -/
theorem bindLoop_ok (config : KeyBindingConfig) :
    ∀ (entries : List (String × KeyAction)) (bs : List KeyBinding) (as : List KeyAction),
      (∀ e ∈ entries, ∃ b, config.GetKeyBinding e.1 = Except.ok b) →
      ∃ bs1, bindLoop config entries bs as
          = Except.ok (bs ++ bs1, as ++ entries.map Prod.snd) ∧
        entries.map (fun e => config.GetKeyBinding e.1) = bs1.map Except.ok := by
  intro entries
  induction entries with
  | nil =>
    intro bs as _
    exact ⟨[], by simp [bindLoop], by simp⟩
  | cons e rest ih =>
    intro bs as h
    obtain ⟨name, action⟩ := e
    obtain ⟨b, hb⟩ := h (name, action) (List.mem_cons_self _ _)
    simp only at hb
    obtain ⟨bs1, h1, h2⟩ := ih (bs ++ [b]) (as ++ [action])
      (fun e he => h e (List.mem_cons_of_mem _ he))
    refine ⟨b :: bs1, ?_, ?_⟩
    · simp only [bindLoop, hb, h1, List.append_assoc, List.singleton_append, List.map_cons]
    · simp only [List.map_cons, hb, h2]

/-- With the configuration that lacks `keybinding.page-up`, the loop of `Setup` panics at
that name, wherever it comes in the order. -/
theorem bindLoop_missing_page_up :
    ∀ (entries : List (String × KeyAction)) (bs : List KeyBinding) (as : List KeyAction),
      (∃ action, ("keybinding.page-up", action) ∈ entries) →
      bindLoop configMissingPageUp entries bs as
        = Except.error "setup error during keybinding.page-up: keybinding not found" := by
  intro entries
  induction entries with
  | nil =>
    intro bs as h
    obtain ⟨a, ha⟩ := h
    simp at ha
  | cons e rest ih =>
    intro bs as h
    obtain ⟨name, action⟩ := e
    by_cases hname : name = "keybinding.page-up"
    · subst hname
      rfl
    · have hget : configMissingPageUp.GetKeyBinding name
          = Except.ok { Match := fun event => decide (event.Key = Key.other 0) } := by
        simp [configMissingPageUp, hname]
      simp only [bindLoop, hget]
      apply ih
      obtain ⟨a, ha⟩ := h
      rcases List.mem_cons.mp ha with ha | ha
      · exact absurd (congrArg Prod.fst ha).symm hname
      · exact ⟨a, ha⟩

/-- C16. `Setup` with a configuration in which `keybinding.page-up` cannot be resolved, for
every order in which the map `bindingSettings` is visited: the call does not return to its
caller, it ends in a run-time panic with the message of the wrapped error. -/
theorem Setup_missing_page_up_panics (order : List (String × KeyAction))
    (hperm : order.Perm bindingSettings) (inputHandler : Option Handler) :
    (Setup configMissingPageUp order inputHandler).2
      = Outcome.panicked "setup error during keybinding.page-up: keybinding not found" := by
  have hmem : ∃ action, ("keybinding.page-up", action) ∈ order :=
    ⟨KeyAction.pageUp, hperm.symm.subset (by simp [bindingSettings])⟩
  simp only [Setup, bindLoop_missing_page_up order [] [] hmem]

/-- Witness of `Setup_missing_page_up_panics`: the entries in the order of the source, on a
freshly constructed widget. -/
theorem Setup_missing_page_up_panics_witness :
    bindingSettings.Perm bindingSettings ∧
    (Setup configMissingPageUp bindingSettings none).2
      = Outcome.panicked "setup error during keybinding.page-up: keybinding not found" :=
  ⟨List.Perm.refl _, Setup_missing_page_up_panics bindingSettings (List.Perm.refl _) none⟩

/-- C17. `Setup`, for every configuration, every order in which the map `bindingSettings`
is visited and every prior value of the field `inputHandler`: if `GetKeyBinding` fails for
one of the four names, the field is left as it was (and the call ends in a panic); if all
four names resolve, the call returns and the field holds a handler whose arrays pair, in the
order visited, each resolved binding with the action of its name.  So a handler is installed
exactly when all four names resolve. -/
theorem Setup_atomic (config : KeyBindingConfig) (order : List (String × KeyAction))
    (hperm : order.Perm bindingSettings) (inputHandler : Option Handler) :
    ((∃ e ∈ bindingSettings, ∃ err, config.GetKeyBinding e.1 = Except.error err) →
      (Setup config order inputHandler).1 = inputHandler ∧
      ∃ msg, (Setup config order inputHandler).2 = Outcome.panicked msg) ∧
    ((∀ e ∈ bindingSettings, ∃ b, config.GetKeyBinding e.1 = Except.ok b) →
      (Setup config order inputHandler).2 = Outcome.returned ∧
      ∃ h, (Setup config order inputHandler).1 = some h ∧
        h.actionArray = order.map Prod.snd ∧
        h.bindingArray.map Except.ok = order.map (fun e => config.GetKeyBinding e.1) ∧
        h.bindingArray.length = 4) ∧
    ((Setup config order inputHandler).2 = Outcome.returned ↔
      ∀ e ∈ bindingSettings, ∃ b, config.GetKeyBinding e.1 = Except.ok b) := by
  have hfail : (∃ e ∈ bindingSettings, ∃ err, config.GetKeyBinding e.1 = Except.error err) →
      (Setup config order inputHandler).1 = inputHandler ∧
      ∃ msg, (Setup config order inputHandler).2 = Outcome.panicked msg := by
    intro h
    obtain ⟨e, he, err, herr⟩ := h
    obtain ⟨msg, hmsg⟩ := bindLoop_error config order [] []
      ⟨e, hperm.symm.subset he, err, herr⟩
    simp only [Setup, hmsg]
    exact ⟨trivial, msg, rfl⟩
  have hok : (∀ e ∈ bindingSettings, ∃ b, config.GetKeyBinding e.1 = Except.ok b) →
      (Setup config order inputHandler).2 = Outcome.returned ∧
      ∃ h, (Setup config order inputHandler).1 = some h ∧
        h.actionArray = order.map Prod.snd ∧
        h.bindingArray.map Except.ok = order.map (fun e => config.GetKeyBinding e.1) ∧
        h.bindingArray.length = 4 := by
    intro h
    obtain ⟨bs1, h1, h2⟩ := bindLoop_ok config order [] []
      (fun e he => h e (hperm.subset he))
    have hlen : bs1.length = 4 := by
      have := congrArg List.length h2
      simp only [List.length_map] at this
      rw [← this, hperm.length_eq]
      rfl
    simp only [Setup, h1]
    exact ⟨trivial, _, rfl, by simp, by simpa using h2.symm, by simpa using hlen⟩
  refine ⟨hfail, hok, fun hret => ?_, fun h => (hok h).1⟩
  intro e he
  cases hget : config.GetKeyBinding e.1 with
  | ok b => exact ⟨b, rfl⟩
  | error err =>
    obtain ⟨_, msg, hmsg⟩ := hfail ⟨e, he, err, hget⟩
    rw [hmsg] at hret
    cases hret

/-- Witness of `Setup_atomic`: the configuration without `keybinding.page-up` leaves the
`nil` handler of a freshly constructed widget in place; the sample configuration installs a
handler. -/
theorem Setup_atomic_witness :
    bindingSettings.Perm bindingSettings ∧
    (∃ e ∈ bindingSettings, ∃ err,
      configMissingPageUp.GetKeyBinding e.1 = Except.error err) ∧
    (Setup configMissingPageUp bindingSettings none).1 = none ∧
    (∀ e ∈ bindingSettings, ∃ b, sampleConfig.GetKeyBinding e.1 = Except.ok b) ∧
    (Setup sampleConfig bindingSettings none).2 = Outcome.returned :=
  ⟨List.Perm.refl _,
    ⟨("keybinding.page-up", KeyAction.pageUp), by simp [bindingSettings], _, rfl⟩,
    ((Setup_atomic configMissingPageUp bindingSettings (List.Perm.refl _) none).1
      ⟨("keybinding.page-up", KeyAction.pageUp), by simp [bindingSettings], _, rfl⟩).1,
    by simp [bindingSettings, sampleConfig],
    ((Setup_atomic sampleConfig bindingSettings (List.Perm.refl _) none).2.1
      (by simp [bindingSettings, sampleConfig])).1⟩

/-! ## The selection and the view model stay in step -/

/-- The switch on the arrow keys keeps the widget's `cmpIndex` equal to the index recorded by
the bounded view model, and inside the list. -/
theorem arrowKeys_in_step (layers : List String) (height : Int) (event : EventKey)
    (ll : LayerList) (s : SampleState)
    (h : ll.cmpIndex = s.layerIndex ∧ 0 ≤ ll.cmpIndex ∧ ll.cmpIndex < (layers.length : Int)) :
    (arrowKeys (boundedVM layers) height event ll s).1.cmpIndex
        = (arrowKeys (boundedVM layers) height event ll s).2.layerIndex ∧
      0 ≤ (arrowKeys (boundedVM layers) height event ll s).1.cmpIndex ∧
      (arrowKeys (boundedVM layers) height event ll s).1.cmpIndex < (layers.length : Int) := by
  obtain ⟨h0, h1, h2⟩ := h
  cases hk : event.Key
  case other code =>
    simp only [arrowKeys, hk]
    exact ⟨h0, h1, h2⟩
  all_goals
    simp only [arrowKeys, hk, boundedVM, keyUp, keyDown]
    split_ifs <;> (simp_all; try omega)

/-- Each action of `Setup` keeps the widget's `cmpIndex` equal to the index recorded by the
bounded view model, and inside the list. -/
theorem action_in_step (layers : List String) (height : Int) (hh : 0 ≤ height)
    (action : KeyAction) (st : LayerList × SampleState)
    (h : st.1.cmpIndex = st.2.layerIndex ∧ 0 ≤ st.1.cmpIndex ∧
      st.1.cmpIndex < (layers.length : Int)) :
    (KeyAction.run (boundedVM layers) height action st).2.1.cmpIndex
        = (KeyAction.run (boundedVM layers) height action st).2.2.layerIndex ∧
      0 ≤ (KeyAction.run (boundedVM layers) height action st).2.1.cmpIndex ∧
      (KeyAction.run (boundedVM layers) height action st).2.1.cmpIndex
        < (layers.length : Int) := by
  obtain ⟨ll, s⟩ := st
  obtain ⟨h0, h1, h2⟩ := h
  simp only at h0 h1 h2
  cases action
  · simp only [KeyAction.run, pageUp, intMax, boundedVM]
    split_ifs <;> simp_all <;> omega
  · simp only [KeyAction.run, pageDown, intMin, boundedVM]
    split_ifs <;> simp_all <;> omega
  · simp only [KeyAction.run, compareAll, boundedVM]
    split_ifs <;> simp_all
  · simp only [KeyAction.run, compareLayer, boundedVM]
    split_ifs <;> simp_all

/-- The loop over the bindings keeps the widget's `cmpIndex` equal to the index recorded by
the bounded view model, and inside the list. -/
theorem dispatch_in_step (layers : List String) (height : Int) (hh : 0 ≤ height)
    (event : EventKey) :
    ∀ (bindings : List KeyBinding) (actions : List KeyAction) (st : LayerList × SampleState),
      (st.1.cmpIndex = st.2.layerIndex ∧ 0 ≤ st.1.cmpIndex ∧
        st.1.cmpIndex < (layers.length : Int)) →
      (dispatch (boundedVM layers) height event bindings actions st).1.cmpIndex
          = (dispatch (boundedVM layers) height event bindings actions st).2.layerIndex ∧
        0 ≤ (dispatch (boundedVM layers) height event bindings actions st).1.cmpIndex ∧
        (dispatch (boundedVM layers) height event bindings actions st).1.cmpIndex
          < (layers.length : Int) := by
  intro bindings
  induction bindings with
  | nil => intro actions st h; simpa [dispatch] using h
  | cons b bs ih =>
    intro actions st h
    cases actions with
    | nil => simpa [dispatch] using h
    | cons a as =>
      simp only [dispatch]
      apply ih
      split_ifs
      · exact action_in_step layers height hh a st h
      · exact h

/-- C20. With `n ≥ 1` items, viewport height `height ≥ 0` and the view model whose
`SetLayerIndex i` answers true and records `i` exactly when `0 ≤ i < n`, starting from
`cmpIndex = 0` and recorded index 0: after the input handler, with any binding and action
arrays, has processed any finite sequence of key events, the widget's `cmpIndex` equals the
index recorded by the view model. -/
theorem cmpIndex_in_step_with_view_model (layers : List String) (hn : 1 ≤ layers.length)
    (height : Int) (hh : 0 ≤ height) (h : Handler) (events : List EventKey)
    (s : SampleState) (hs : s.layerIndex = 0) :
    (runEvents (boundedVM layers) height h events (NewLayerList, s)).1.cmpIndex
      = (runEvents (boundedVM layers) height h events (NewLayerList, s)).2.layerIndex := by
  have key : ∀ (events : List EventKey) (st : LayerList × SampleState),
      (st.1.cmpIndex = st.2.layerIndex ∧ 0 ≤ st.1.cmpIndex ∧
        st.1.cmpIndex < (layers.length : Int)) →
      (runEvents (boundedVM layers) height h events st).1.cmpIndex
        = (runEvents (boundedVM layers) height h events st).2.layerIndex := by
    intro events
    induction events with
    | nil => intro st hst; exact hst.1
    | cons event events ih =>
      intro st hst
      simp only [runEvents]
      apply ih
      simp only [inputHandler]
      exact dispatch_in_step layers height hh event _ _ _
        (arrowKeys_in_step layers height event st.1 st.2 hst)
  apply key
  refine ⟨by simp [NewLayerList, hs], by simp [NewLayerList], ?_⟩
  simp only [NewLayerList]
  omega

/-- Witness of `cmpIndex_in_step_with_view_model`: ten layers, viewport height 4, the sample
handler; Down, page-down (key code 2), Right, Up, page-up (key code 1). -/
theorem cmpIndex_in_step_with_view_model_witness :
    1 ≤ tenLayers.length ∧ (0 : Int) ≤ 4 ∧ sampleInit.layerIndex = 0 ∧
    (runEvents (boundedVM tenLayers) 4 sampleHandler
        [⟨Key.KeyDown, 'j', 0⟩, ⟨Key.other 2, ' ', 0⟩, ⟨Key.KeyRight, 'l', 0⟩,
          ⟨Key.KeyUp, 'k', 0⟩, ⟨Key.other 1, ' ', 0⟩]
        (NewLayerList, sampleInit)).1.cmpIndex
      = (runEvents (boundedVM tenLayers) 4 sampleHandler
        [⟨Key.KeyDown, 'j', 0⟩, ⟨Key.other 2, ' ', 0⟩, ⟨Key.KeyRight, 'l', 0⟩,
          ⟨Key.KeyUp, 'k', 0⟩, ⟨Key.other 1, ' ', 0⟩]
        (NewLayerList, sampleInit)).2.layerIndex :=
  ⟨by decide, by decide, rfl,
    cmpIndex_in_step_with_view_model tenLayers (by decide) 4 (by decide) sampleHandler
      [⟨Key.KeyDown, 'j', 0⟩, ⟨Key.other 2, ' ', 0⟩, ⟨Key.KeyRight, 'l', 0⟩,
        ⟨Key.KeyUp, 'k', 0⟩, ⟨Key.other 1, ' ', 0⟩] sampleInit rfl⟩

end Dive
